import Mathlib

/-!
Shallow embedding of `src/app.py` (a Streamlit leaderboard evaluator) for
verification of its specification.

The program keeps a shared history log as one CSV blob in a GitHub
repository.  `append_log_row_to_github` appends a result row to that blob
under optimistic concurrency (the blob's `sha` acts as the version token),
retrying on HTTP 409 conflicts up to 5 attempts, with a per-session dedup
guard in `st.session_state`.

Modelling conventions:
* a decoded log table is a `List Row` (one structured record per CSV row);
* the blob store's version token (`sha`) is a `Nat`;
* float scores are modelled as `Rat`;
* network behaviour is an oracle: a list of per-attempt outcomes, one entry
  per iteration of the retry loop (read outcome, then put outcome).
-/

namespace App

/-- One record of the history log, with the columns written by `app.py`
(`timestamp_utc, user_id, file_sha256, n_ids, f1_weighted, mode`). -/
structure Row where
  timestamp_utc : String
  user_id : String
  file_sha256 : String
  n_ids : Nat
  f1_weighted : Rat
  mode : String
deriving DecidableEq, Repr

/-- The session dedup key of a row.  In the source it is the formatted string
`f"logged_{file_sha256}_{f1_weighted}_{n_ids}_{mode}"` (app.py line 132);
we model it as the tuple of the four interpolated fields. -/
def dedupKey (row : Row) : String × Rat × Nat × String :=
  (row.file_sha256, row.f1_weighted, row.n_ids, row.mode)

/-- Exception classes distinguished by the retry loop's handlers:
`conflict` is the `RuntimeError("conflict")` raised by `_put_contents` on
HTTP 409 (caught by `except RuntimeError` → `continue`); `transient` is any
other exception — network error, timeout, `raise_for_status` — caught by
`except Exception` → `break`. -/
inductive StoreExc where
  | conflict
  | transient
deriving DecidableEq, Repr

/-- Outcome of `_read_log_from_github_nocache()` in one attempt: it either
raises, returns `(None, None)` on HTTP 404, or returns the decoded table
with the blob's current sha. -/
inductive ReadOutcome where
  | raises (e : StoreExc)
  | ok (r : Option (List Row × Nat))
deriving DecidableEq, Repr

/-- Outcome of `_put_contents(...)` in one attempt. -/
inductive PutOutcome where
  | ok
  | raises (e : StoreExc)
deriving DecidableEq, Repr

/-- Observation of the successful commit, if the loop reached one:
what the committing attempt read (`none` = the 404 branch), the `sha`
argument passed to `_put_contents`, and the decoded content of the blob it
wrote. -/
structure CommitInfo where
  readLog : Option (List Row)
  shaArg : Option Nat
  written : List Row
deriving DecidableEq, Repr

/-- Result of the `for attempt in range(5)` loop of
`append_log_row_to_github` (app.py lines 136-170). -/
structure LoopResult where
  attemptsUsed : Nat
  commit : Option CommitInfo
  raised : Option StoreExc
  keyMarked : Bool
deriving DecidableEq, Repr

/-- The retry loop, one recursive step per iteration.  Mirrors app.py
lines 138-166:

* read raises / put raises `transient` → `except Exception: break`, then
  `raise last_exc` (lines 164-170);
* read raises / put raises `conflict` → `except RuntimeError: continue`
  (lines 160-163);
* read returns `None` (404) → `new_df = DataFrame([row])`, put with
  `sha=None` (lines 141-144);
* read returns a table `df` with sha → `new_df = concat([df, [row]])`, put
  with that sha (lines 145-152);
* successful put → clear read cache, `st.session_state[key] = True`,
  `return` (lines 153-159).

The column-alignment loop (lines 147-149) only back-fills missing CSV
columns and does not touch existing records; on structured records it is
the identity, so it is not represented.  The code after the loop
(lines 173-191) is unreachable: every iteration either returns or sets
`last_exc`, and `range(5)` is non-empty, so line 170 always raises. -/
def runAttempts (row : Row) : List (ReadOutcome × PutOutcome) → Option StoreExc → LoopResult
  | [], last =>
      { attemptsUsed := 0, commit := none, raised := last, keyMarked := false }
  | (rd, pt) :: rest, _ =>
      match rd with
      | .raises .conflict =>
          let r := runAttempts row rest (some .conflict)
          { r with attemptsUsed := r.attemptsUsed + 1 }
      | .raises .transient =>
          { attemptsUsed := 1, commit := none, raised := some .transient, keyMarked := false }
      | .ok res =>
          let written : List Row :=
            match res with
            | none => [row]
            | some (df, _) => df ++ [row]
          match pt with
          | .ok =>
              { attemptsUsed := 1
                commit := some { readLog := res.map (·.1), shaArg := res.map (·.2), written := written }
                raised := none
                keyMarked := true }
          | .raises .conflict =>
              let r := runAttempts row rest (some .conflict)
              { r with attemptsUsed := r.attemptsUsed + 1 }
          | .raises .transient =>
              { attemptsUsed := 1, commit := none, raised := some .transient, keyMarked := false }

/-- Result of one call of `append_log_row_to_github`, together with the
session's dedup-key set after the call. -/
structure AppendResult where
  attemptsUsed : Nat
  commit : Option CommitInfo
  raised : Option StoreExc
  sessionAfter : List (String × Rat × Nat × String)
deriving DecidableEq, Repr

/-- `append_log_row_to_github(row)` (app.py lines 125-170).  `sess` is the
set of dedup keys already marked in `st.session_state`; `specs` is the
store oracle, one entry per loop iteration (`range(5)` consumes at most
five).  Lines 132-134: if the key is already marked, return immediately
doing nothing. -/
def append_log_row_to_github (row : Row) (sess : List (String × Rat × Nat × String))
    (specs : List (ReadOutcome × PutOutcome)) : AppendResult :=
  if dedupKey row ∈ sess then
    { attemptsUsed := 0, commit := none, raised := none, sessionAfter := sess }
  else
    let r := runAttempts row (specs.take 5) none
    { attemptsUsed := r.attemptsUsed
      commit := r.commit
      raised := r.raised
      sessionAfter := if r.keyMarked then dedupKey row :: sess else sess }

/-! ### Evaluation block: type alignment before `f1_score` (app.py 347-363)

The merged table's cells are modelled as `PyVal`: a number, a string, or a
missing value (pandas `NaN`).  A pandas column has numeric dtype exactly
when all of its cells are numbers or missing. -/

/-- A pandas cell value: numeric, string, or missing (`NaN`). -/
inductive PyVal where
  | num (q : Rat)
  | str (s : String)
  | na
deriving DecidableEq, Repr

/-- Whether a cell holds a number. -/
def PyVal.isNum : PyVal → Bool
  | .num _ => true
  | _ => false

/-- Whether a cell is missing (`NaN`). -/
def PyVal.isNa : PyVal → Bool
  | .na => true
  | _ => false

/-- `pd.api.types.is_numeric_dtype` on a column: every cell is a number or
missing. -/
def isNumericCol (col : List PyVal) : Bool :=
  col.all fun v => v.isNum || v.isNa

/-- One cell of `pd.to_numeric(..., errors="coerce")`: numbers pass through,
unparseable strings become missing.  The string parser is the external
pandas routine, passed in as `toNum`. -/
def coerceToNumeric (toNum : String → Option Rat) : PyVal → PyVal
  | .num q => .num q
  | .na =>
      .na
  | .str s =>
      match toNum s with
      | some q => .num q
      | none => .na

/-- One cell of `.astype(str)`: numbers are formatted by the external
pandas formatter `numStr`; a missing value formats as the literal string
produced for `NaN`. -/
def castToStr (numStr : Rat → String) : PyVal → PyVal
  | .num q => .str (numStr q)
  | .str s => .str s
  | .na => .str "nan"

/-- The evaluation block between the merge and the call of `f1_score`
(app.py lines 347-357): align the dtype of `prediction` with `target`
(numeric target and non-numeric prediction → `to_numeric` coercion;
non-numeric target and numeric prediction → `astype(str)`), then drop rows
where `target` or `prediction` is missing.  The resulting pairs are passed
verbatim to `f1_score(..., average="weighted")` (line 363): the code
applies no binarization, thresholding, or min-max normalization. -/
def evalPrep (toNum : String → Option Rat) (numStr : Rat → String)
    (merged : List (PyVal × PyVal)) : List (PyVal × PyVal) :=
  let tcol := merged.map Prod.fst
  let pcol := merged.map Prod.snd
  let coerced :=
    if isNumericCol tcol && !(isNumericCol pcol) then
      merged.map fun p => (p.1, coerceToNumeric toNum p.2)
    else if !(isNumericCol tcol) && isNumericCol pcol then
      merged.map fun p => (p.1, castToStr numStr p.2)
    else
      merged
  coerced.filter fun p => !(p.1.isNa) && !(p.2.isNa)

/-! ### Evaluation block: duplicate ids, null predictions, inner merge
(app.py 321-345) -/

/-- `drop_duplicates(subset=["id"], keep="first")` on an `(id, value)`
table: keep the first row of each id.  `seen` accumulates ids already
kept. -/
def dropDupIdsAux : List (String × PyVal) → List String → List (String × PyVal)
  | [], _ => []
  | p :: ps, seen =>
      if seen.contains p.1 then dropDupIdsAux ps seen
      else p :: dropDupIdsAux ps (p.1 :: seen)

/-- Duplicate-id removal keeping the first occurrence (app.py line 325 for
the submission; line 81 in `load_gt_from_github` for the ground truth). -/
def dropDupIds (l : List (String × PyVal)) : List (String × PyVal) :=
  dropDupIdsAux l []

/-- `dropna(subset=["prediction"])` (app.py line 331): remove rows with a
missing prediction. -/
def dropNaPrediction (l : List (String × PyVal)) : List (String × PyVal) :=
  l.filter fun p => !(p.2.isNa)

/-- The row set of `pd.merge(gt, user, on="id", how="inner")`: for each
ground-truth row, the matching submission row, if any.  For unique keys the
inner merge preserves the order of the left (ground-truth) frame. -/
def innerMergeOnId (gt sub : List (String × PyVal)) :
    List (String × PyVal × PyVal) :=
  gt.filterMap fun g =>
    (sub.find? fun u => u.1 == g.1).map fun u => (g.1, g.2, u.2)

/-- Result of `pd.merge(..., validate="one_to_one")`: pandas raises
`MergeError` when the key is not unique on either side, and otherwise
returns the inner join. -/
inductive MergeResult where
  | mergeError
  | ok (m : List (String × PyVal × PyVal))
deriving DecidableEq, Repr

/-- `pd.merge(gt, user, on="id", how="inner", validate="one_to_one")`
(app.py lines 335-341). -/
def mergeValidateOneToOne (gt sub : List (String × PyVal)) : MergeResult :=
  if (gt.map Prod.fst).Nodup ∧ (sub.map Prod.fst).Nodup then
    .ok (innerMergeOnId gt sub)
  else
    .mergeError

/-- The merge step as executed by the script: the ground truth arrives
deduplicated from `load_gt_from_github` (line 81), the submission is
deduplicated keeping the first occurrence (line 325) and stripped of
missing predictions (line 331), then inner-merged on `id`
(lines 335-341). -/
def evalMerge (gt sub : List (String × PyVal)) : MergeResult :=
  mergeValidateOneToOne (dropDupIds gt) (dropNaPrediction (dropDupIds sub))

/-- What happens right after the merge (app.py lines 342-345): an empty
matched set shows a user-facing error (`"No hubo IDs coincidentes."`) and
stops the script — so no record is appended — otherwise evaluation
proceeds with the matched rows. -/
inductive OverlapGate where
  | noOverlap
  | proceed (m : List (String × PyVal × PyVal))
deriving DecidableEq, Repr

/-- The `if merged.empty` gate (app.py lines 342-345). -/
def overlapGate (m : List (String × PyVal × PyVal)) : OverlapGate :=
  if m.isEmpty then .noOverlap else .proceed m

/-! ### Leaderboard projection (app.py 195-227, 230-263)

Python string operations are modelled on the character list underlying the
string (`String.data`), which matches Python's codepoint-wise semantics for
the identifiers and ISO timestamps this program handles. -/

/-- Python `str.strip()`: remove leading and trailing whitespace. -/
def pyStrip (s : String) : String :=
  ⟨((s.data.dropWhile Char.isWhitespace).reverse.dropWhile Char.isWhitespace).reverse⟩

/-- Python `str.lower()`: lower-case every character. -/
def pyLower (s : String) : String :=
  ⟨s.data.map Char.toLower⟩

/-- Codepoint-wise lexicographic "strictly less" on character lists, as
Python and pandas compare strings. -/
def charListLtb : List Char → List Char → Bool
  | [], [] => false
  | [], _ :: _ => true
  | _ :: _, [] => false
  | a :: as, b :: bs =>
      if a < b then true
      else if b < a then false
      else charListLtb as bs

/-- Python `<` on strings. -/
def pyStrLtb (a b : String) : Bool :=
  charListLtb a.data b.data

/-- The normalized user identity used as grouping key:
`user_id.astype(str).str.strip().str.lower()` (app.py line 208). -/
def rankKey (r : Row) : String :=
  pyLower (pyStrip r.user_id)

/-- Strict "comes before" for the first sort
`sort_values(["rank_key", "f1_weighted", "timestamp_utc"],
ascending=[True, False, False])` (app.py line 210). -/
def bestSortBefore (a b : Row) : Bool :=
  pyStrLtb (rankKey a) (rankKey b) ||
    (rankKey a == rankKey b &&
      (b.f1_weighted < a.f1_weighted ||
        (a.f1_weighted == b.f1_weighted && pyStrLtb b.timestamp_utc a.timestamp_utc)))

/-- Strict "comes before" for the final sort
`sort_values(["f1_weighted", "timestamp_utc"], ascending=[False, False])`
(app.py line 216). -/
def rankSortBefore (a b : Row) : Bool :=
  b.f1_weighted < a.f1_weighted ||
    (a.f1_weighted == b.f1_weighted && pyStrLtb b.timestamp_utc a.timestamp_utc)

/-- Insert `x` into `l` before the first element that does not strictly
precede it (stable insertion; ties keep their existing order). -/
def insertOrd (before : Row → Row → Bool) (x : Row) : List Row → List Row
  | [] => [x]
  | y :: ys => if before y x then y :: insertOrd before x ys else x :: y :: ys

/-- Stable sort by a strict "comes before" comparison, modelling pandas
`sort_values` on a fully specified key. -/
def sortRows (before : Row → Row → Bool) : List Row → List Row
  | [] => []
  | x :: xs => insertOrd before x (sortRows before xs)

/-- `drop_duplicates(subset=["rank_key"], keep="first")` (app.py
line 211): keep the first row of each normalized user. -/
def dropDupRankKeyAux : List Row → List String → List Row
  | [], _ => []
  | r :: rs, seen =>
      if seen.contains (rankKey r) then dropDupRankKeyAux rs seen
      else r :: dropDupRankKeyAux rs (rankKey r :: seen)

/-- One displayed leaderboard line: the columns selected at app.py
line 215 (renamed `Nombre`, `F1 (weighted)`, `#IDs`, `Último envío`). -/
structure LBEntry where
  user_id : String
  f1_weighted : Rat
  n_ids : Nat
  timestamp_utc : String
deriving DecidableEq, Repr

/-- The leaderboard computed by `_render_leaderboard` (app.py
lines 206-219): sort by (normalized user asc, score desc, timestamp desc),
keep the best row per normalized user, then rank by (score desc, timestamp
desc). -/
def leaderboard (df : List Row) : List LBEntry :=
  let best := dropDupRankKeyAux (sortRows bestSortBefore df) []
  (sortRows rankSortBefore best).map fun r =>
    ⟨r.user_id, r.f1_weighted, r.n_ids, r.timestamp_utc⟩

/-- The per-mode tab filter `history_df["mode"].str.lower().eq(m)`
(app.py lines 252 and 256): case-insensitive exact match on `mode`. -/
def filterMode (m : String) (df : List Row) : List Row :=
  df.filter fun r => pyLower r.mode == m

/-- The projection of a history record to its displayed leaderboard line
(the column selection at app.py line 215). -/
def rowEntry (r : Row) : LBEntry :=
  ⟨r.user_id, r.f1_weighted, r.n_ids, r.timestamp_utc⟩

/-- The normalized user identity of a displayed line (same normalization
as `rankKey`, computed from the displayed `user_id`). -/
def entryKey (e : LBEntry) : String :=
  pyLower (pyStrip e.user_id)

/-- Strict "ranks strictly higher" on displayed lines: higher score, or
equal score and more recent timestamp — the displayed-column restatement
of `rankSortBefore`. -/
def entryBefore (a b : LBEntry) : Bool :=
  b.f1_weighted < a.f1_weighted ||
    (a.f1_weighted == b.f1_weighted && pyStrLtb b.timestamp_utc a.timestamp_utc)

/-! ### Module-level script tail (app.py 290-405)

The statements after the widgets: the guarded evaluation block
(line 300), and — because of the dedent at lines 383-384 — a module-level
publication loop that runs on *every* script run.  `st.stop()` terminates
the script run immediately, so an abort inside the evaluation block never
reaches the loop. -/

/-- The literal required-column check of the submission
(app.py line 309). -/
def required_user_cols : List String := ["id", "prediction"]

/-- `required_user_cols.issubset(user_df.columns)` (app.py line 312).
Column names are compared verbatim: no case folding and no aliases. -/
def userSchemaOk (cols : List String) : Bool :=
  required_user_cols.all fun c => cols.contains c

/-- Which `st.error` message accompanied the `st.stop()` that ended the
run. -/
inductive StopReason where
  | badCsv
  | badUserSchema
  | badGtSchema
  | noOverlap
  | f1Error
deriving DecidableEq, Repr

/-- How a script run ends after the widgets are rendered. -/
inductive ScriptEnd where
  | stopped (r : StopReason)
  | nameError (n : String)
  | completedPublish
deriving DecidableEq, Repr

/-- The inputs and externally determined conditions of one script run:
whether the button was pressed, whether a file is uploaded, whether the
name is non-blank, the selected modes, and the outcome of each step of the
evaluation block that depends on external data (CSV parse success, the
submission's column names, the ground-truth column check, emptiness of the
merged set, success of the `f1_score` call). -/
structure RunCfg where
  run_eval : Bool
  uploadedPresent : Bool
  valid_name : Bool
  modes : List String
  csv_ok : Bool
  user_cols : List String
  gt_cols_ok : Bool
  merged_empty : Bool
  f1_ok : Bool
deriving DecidableEq, Repr

/-- The script tail from the guard at app.py line 300 onward.

When the guard `run_eval and uploaded and valid_name and modes` holds, the
evaluation block runs; each failed validation shows an error and calls
`st.stop()` (lines 302-307, 312-315, 316-319, 342-345, 373-376), ending
the run.  If everything succeeds, the block binds `file_sha256`,
`timestamp_utc`, `merged`, `f1_w` and `ok_modes` (lines 363, 379-382) and
the publication loop (lines 384-397) runs with those bindings.

When the guard fails, the block is skipped, yet — dedent bug — line 383
(`errors = []`) and the loop at line 384 still execute at module level:
with a non-empty `modes`, building the row dict (lines 385-392) reads the
unbound name `timestamp_utc` first and raises `NameError`; with empty
`modes`, the loop body never runs and line 399 (`if ok_modes:`) reads the
unbound name `ok_modes` and raises `NameError`. -/
def script_tail (cfg : RunCfg) : ScriptEnd :=
  if cfg.run_eval && cfg.uploadedPresent && cfg.valid_name && !cfg.modes.isEmpty then
    if !cfg.csv_ok then .stopped .badCsv
    else if !(userSchemaOk cfg.user_cols) then .stopped .badUserSchema
    else if !cfg.gt_cols_ok then .stopped .badGtSchema
    else if cfg.merged_empty then .stopped .noOverlap
    else if !cfg.f1_ok then .stopped .f1Error
    else .completedPublish
  else if cfg.modes.isEmpty then .nameError "ok_modes"
  else .nameError "timestamp_utc"

end App

namespace App

/- Concrete values used by sanity examples, witnesses and counterexamples.
Concrete `Rat` scores are written with the structure constructor
(numerator, denominator, proofs) so that `decide` can evaluate them in the
kernel. -/

/-- The rational 4/5 = 0.8. -/
def q08 : Rat := ⟨4, 5, by decide, by decide⟩
/-- The rational 9/10 = 0.9. -/
def q09 : Rat := ⟨9, 10, by decide, by decide⟩

/-- The rational 1/5 = 0.2. -/
def q02 : Rat := ⟨1, 5, by decide, by decide⟩
/-- The rational 2/5 = 0.4. -/
def q04 : Rat := ⟨2, 5, by decide, by decide⟩
/-- The rational 3/5 = 0.6. -/
def q06 : Rat := ⟨3, 5, by decide, by decide⟩
/-- The rational 7/10 = 0.7. -/
def q07 : Rat := ⟨7, 10, by decide, by decide⟩

def rowA : Row := ⟨"2026-01-01T00:00:00Z", "alice", "aa11", 100, q08, "online"⟩
def rowB : Row := ⟨"2026-01-02T00:00:00Z", "bob", "bb22", 100, q09, "online"⟩

/-- A later retry of `rowB`: different timestamp, same dedup key
`(file_sha256, f1_weighted, n_ids, mode)`. -/
def rowB2 : Row := ⟨"2026-01-03T00:00:00Z", "bob", "bb22", 100, q09, "online"⟩

/-- `alice`'s higher-scoring record (score 0.8 at time `t1`). -/
def lbAlice1 : Row := ⟨"t1", "alice", "a1", 10, q08, "online"⟩
/-- `alice`'s lower-scoring record (score 0.6 at time `t2`, `t1 < t2`). -/
def lbAlice2 : Row := ⟨"t2", "alice", "a2", 10, q06, "online"⟩
/-- `bob`'s record (score 0.9 at time `t3`). -/
def lbBob : Row := ⟨"t3", "bob", "b1", 10, q09, "online"⟩

/-- `carol`'s earlier record of a score tie (0.9 at `t1`). -/
def lbCarol1 : Row := ⟨"t1", "carol", "c1", 10, q09, "online"⟩
/-- `carol`'s later record of the same score (0.9 at `t2`, `t1 < t2`). -/
def lbCarol2 : Row := ⟨"t2", "carol", "c2", 10, q09, "online"⟩

/-- Ground truth `{1:A, 2:B, 3:A}` of the join-correctness test. -/
def gtJoinEx : List (String × PyVal) :=
  [("1", .str "A"), ("2", .str "B"), ("3", .str "A")]

/-- Submission `{1:A, 2:A, 4:B}` of the join-correctness test. -/
def subJoinEx : List (String × PyVal) :=
  [("1", .str "A"), ("2", .str "A"), ("4", .str "B")]

/-- A stand-in for the external pandas string-to-number parser; never
consulted on all-numeric columns. -/
def toNumStub : String → Option Rat := fun _ => none

/-- A stand-in for the external pandas number formatter; never consulted on
numeric-target inputs. -/
def numStrStub : Rat → String := fun _ => ""

/-- The merged `(target, prediction)` pairs of the binarization test:
binary targets against the raw predictions `[0.2, 0.9, 0.4, 0.7]`. -/
def c6pairs : List (PyVal × PyVal) :=
  [(.num 0, .num q02), (.num 1, .num q09), (.num 0, .num q04), (.num 1, .num q07)]

/-- A run where the user pressed the button with a mode selected but the
uploaded CSV fails to parse: the evaluation block stops the script at
app.py lines 302-307. -/
def cfgBadCsv : RunCfg :=
  { run_eval := true, uploadedPresent := true, valid_name := true,
    modes := ["Online"], csv_ok := false, user_cols := [],
    gt_cols_ok := true, merged_empty := false, f1_ok := true }

/-- A run where the button was not pressed and one mode is selected. -/
def cfgNoButton : RunCfg :=
  { run_eval := false, uploadedPresent := true, valid_name := true,
    modes := ["Online"], csv_ok := true, user_cols := ["id", "prediction"],
    gt_cols_ok := true, merged_empty := false, f1_ok := true }

/-- A run where everything is valid except that the submission names its
prediction column with the localized alias `prediccion`. -/
def cfgAliasCol : RunCfg :=
  { run_eval := true, uploadedPresent := true, valid_name := true,
    modes := ["Online"], csv_ok := true, user_cols := ["id", "prediccion"],
    gt_cols_ok := true, merged_empty := false, f1_ok := true }

example :
    append_log_row_to_github rowB [] [(.ok (some ([rowA], 7)), .ok)] =
      { attemptsUsed := 1
        commit := some { readLog := some [rowA], shaArg := some 7, written := [rowA, rowB] }
        raised := none
        sessionAfter := [dedupKey rowB] } := by decide

example :
    append_log_row_to_github rowB []
      (List.replicate 5 (.ok (some ([rowA], 7)), .raises .conflict)) =
      { attemptsUsed := 5, commit := none, raised := some .conflict, sessionAfter := [] } := by
  decide

example :
    append_log_row_to_github rowB []
      [(.ok (some ([], 0)), .raises .transient), (.ok (some ([], 0)), .ok)] =
      { attemptsUsed := 1, commit := none, raised := some .transient, sessionAfter := [] } := by
  decide

/-! ### Helper lemmas about the retry loop -/

/-- Unfolding of `append_log_row_to_github` when the dedup key is already
marked in the session: the call returns immediately without touching the
store. -/
theorem append_eq_of_mem (row : Row) (sess : List (String × Rat × Nat × String))
    (specs : List (ReadOutcome × PutOutcome)) (hk : dedupKey row ∈ sess) :
    append_log_row_to_github row sess specs =
      { attemptsUsed := 0, commit := none, raised := none, sessionAfter := sess } := by
  unfold append_log_row_to_github
  rw [if_pos hk]

/-- Unfolding of `append_log_row_to_github` when the dedup key is not yet
marked: the retry loop runs on at most five oracle entries. -/
theorem append_eq_of_not_mem (row : Row) (sess : List (String × Rat × Nat × String))
    (specs : List (ReadOutcome × PutOutcome)) (hk : dedupKey row ∉ sess) :
    append_log_row_to_github row sess specs =
      { attemptsUsed := (runAttempts row (specs.take 5) none).attemptsUsed
        commit := (runAttempts row (specs.take 5) none).commit
        raised := (runAttempts row (specs.take 5) none).raised
        sessionAfter :=
          if (runAttempts row (specs.take 5) none).keyMarked then dedupKey row :: sess
          else sess } := by
  unfold append_log_row_to_github
  rw [if_neg hk]

/-- The loop marks the session key exactly when it committed a write:
`st.session_state[key] = True` (app.py line 158) is executed only on the
success path, and the fallback that would mark it after a failure
(lines 190-191) is unreachable. -/
theorem runAttempts_keyMarked_iff_commit (row : Row) :
    ∀ (l : List (ReadOutcome × PutOutcome)) (last : Option StoreExc),
      (runAttempts row l last).keyMarked = (runAttempts row l last).commit.isSome := by
  intro l
  induction l with
  | nil => intro last; rfl
  | cons hd tl ih =>
    intro last
    obtain ⟨rd, pt⟩ := hd
    cases rd with
    | raises e =>
      cases e with
      | conflict => simpa [runAttempts] using ih (some .conflict)
      | transient => rfl
    | ok res =>
      cases pt with
      | ok => rfl
      | raises e =>
        cases e with
        | conflict => simpa [runAttempts] using ih (some .conflict)
        | transient => rfl

/-- Whenever the loop commits, the blob it wrote is the table it read in
the same attempt (the empty table on the 404 branch) with the new row
appended at the end. -/
theorem runAttempts_commit_shape (row : Row) :
    ∀ (l : List (ReadOutcome × PutOutcome)) (last : Option StoreExc) (ci : CommitInfo),
      (runAttempts row l last).commit = some ci →
      ci.written = ci.readLog.getD [] ++ [row] := by
  intro l
  induction l with
  | nil => intro last ci h; cases h
  | cons hd tl ih =>
    intro last ci h
    obtain ⟨rd, pt⟩ := hd
    cases rd with
    | raises e =>
      cases e with
      | conflict => exact ih (some .conflict) ci (by simpa [runAttempts] using h)
      | transient => cases h
    | ok res =>
      cases pt with
      | ok =>
        simp only [runAttempts, Option.some.injEq] at h
        cases res with
        | none => rw [← h]; rfl
        | some dfsha => rw [← h]; rfl
      | raises e =>
        cases e with
        | conflict => exact ih (some .conflict) ci (by simpa [runAttempts] using h)
        | transient => cases h

/-- On a list of attempts that all read successfully and fail their put
with a conflict, the loop consumes every attempt, commits nothing, marks
nothing, and ends holding the conflict as `last_exc`. -/
theorem runAttempts_all_conflict (row : Row) :
    ∀ (l : List (ReadOutcome × PutOutcome)), l ≠ [] →
      (∀ s ∈ l, (∃ r, s.1 = ReadOutcome.ok r) ∧ s.2 = PutOutcome.raises StoreExc.conflict) →
      ∀ last, runAttempts row l last =
        { attemptsUsed := l.length, commit := none,
          raised := some StoreExc.conflict, keyMarked := false } := by
  intro l
  induction l with
  | nil => intro h; exact absurd rfl h
  | cons hd tl ih =>
    intro _ hall last
    obtain ⟨⟨r, hr⟩, hp⟩ := hall hd (List.mem_cons_self hd tl)
    obtain ⟨rd, pt⟩ := hd
    dsimp only at hr hp
    subst hr; subst hp
    by_cases htl : tl = []
    · subst htl; simp [runAttempts]
    · have := ih htl (fun s hs => hall s (List.mem_cons_of_mem _ hs)) (some .conflict)
      simp [runAttempts, this]

/-- A transient failure after any number of conflict attempts ends the
loop at once: the iteration that hits it is the last one and the transient
error becomes `last_exc`. -/
theorem runAttempts_transient_stops (row : Row) :
    ∀ (pre : List (ReadOutcome × PutOutcome)),
      (∀ s ∈ pre, (∃ r, s.1 = ReadOutcome.ok r) ∧ s.2 = PutOutcome.raises StoreExc.conflict) →
      ∀ (rd : Option (List Row × Nat)) (rest : List (ReadOutcome × PutOutcome))
        (last : Option StoreExc),
        runAttempts row
            (pre ++ (ReadOutcome.ok rd, PutOutcome.raises StoreExc.transient) :: rest) last =
          { attemptsUsed := pre.length + 1, commit := none,
            raised := some StoreExc.transient, keyMarked := false } := by
  intro pre
  induction pre with
  | nil => intro _ rd rest last; rfl
  | cons hd tl ih =>
    intro hall rd rest last
    obtain ⟨⟨r, hr⟩, hp⟩ := hall hd (List.mem_cons_self hd tl)
    obtain ⟨rd0, pt0⟩ := hd
    dsimp only at hr hp
    subst hr; subst hp
    have := ih (fun s hs => hall s (List.mem_cons_of_mem _ hs)) rd rest (some .conflict)
    simp [runAttempts, this]

/-- A failed call never marks the session dedup key: the marking statement
(app.py line 158) is only reached after a successful put. -/
theorem append_session_unchanged_of_no_commit (row : Row)
    (sess : List (String × Rat × Nat × String)) (specs : List (ReadOutcome × PutOutcome))
    (h : (append_log_row_to_github row sess specs).commit = none) :
    (append_log_row_to_github row sess specs).sessionAfter = sess := by
  by_cases hk : dedupKey row ∈ sess
  · rw [append_eq_of_mem row sess specs hk]
  · rw [append_eq_of_not_mem row sess specs hk] at h ⊢
    have hm := runAttempts_keyMarked_iff_commit row (specs.take 5) none
    simp only at h
    rw [h] at hm
    simp only [Option.isSome_none] at hm
    simp [hm]

/-- A successful call leaves the row's dedup key marked in the session. -/
theorem append_key_mem_of_commit (row : Row)
    (sess : List (String × Rat × Nat × String)) (specs : List (ReadOutcome × PutOutcome))
    (h : (append_log_row_to_github row sess specs).commit ≠ none) :
    dedupKey row ∈ (append_log_row_to_github row sess specs).sessionAfter := by
  by_cases hk : dedupKey row ∈ sess
  · rw [append_eq_of_mem row sess specs hk]; exact hk
  · rw [append_eq_of_not_mem row sess specs hk] at h ⊢
    have hm := runAttempts_keyMarked_iff_commit row (specs.take 5) none
    simp only at h
    cases hcm : (runAttempts row (specs.take 5) none).commit with
    | none => exact absurd hcm h
    | some ci =>
      rw [hcm] at hm
      simp only [Option.isSome_some] at hm
      simp [hm]

/-! ### Claim theorems -/

/-- C1: every successful call of `append_log_row_to_github` on an existing
history log writes exactly the previously read log table with the single
new record appended at the end — every previously present record is
preserved unchanged and in order, and exactly one record is added. -/
theorem C1_successful_append_appends_exactly_one_row (row : Row)
    (sess : List (String × Rat × Nat × String)) (specs : List (ReadOutcome × PutOutcome))
    (ci : CommitInfo) (prev : List Row)
    (hc : (append_log_row_to_github row sess specs).commit = some ci)
    (hr : ci.readLog = some prev) :
    ci.written = prev ++ [row] := by
  by_cases hk : dedupKey row ∈ sess
  · rw [append_eq_of_mem row sess specs hk] at hc; cases hc
  · rw [append_eq_of_not_mem row sess specs hk] at hc
    simp only at hc
    have := runAttempts_commit_shape row (specs.take 5) none ci hc
    rw [hr] at this
    simpa using this

/-- Witness for C1: appending `rowB` to a log read as `[rowA]` commits the
blob `[rowA, rowB]`. -/
theorem C1_witness :
    (append_log_row_to_github rowB [] [(.ok (some ([rowA], 7)), .ok)]).commit =
        some ⟨some [rowA], some 7, [rowA, rowB]⟩ ∧
      (⟨some [rowA], some 7, [rowA, rowB]⟩ : CommitInfo).readLog = some [rowA] ∧
      (⟨some [rowA], some 7, [rowA, rowB]⟩ : CommitInfo).written = [rowA] ++ [rowB] :=
  ⟨by decide, by decide,
    C1_successful_append_appends_exactly_one_row rowB [] [(.ok (some ([rowA], 7)), .ok)]
      ⟨some [rowA], some 7, [rowA, rowB]⟩ [rowA] (by decide) (by decide)⟩

/-- C2: against a store whose put always fails with a version conflict
(HTTP 409), `append_log_row_to_github` performs exactly 5 attempts, raises
the last error, commits nothing, and leaves the session dedup state
unchanged. -/
theorem C2_conflict_exhaustion_five_attempts (row : Row)
    (sess : List (String × Rat × Nat × String)) (specs : List (ReadOutcome × PutOutcome))
    (hk : dedupKey row ∉ sess) (hlen : 5 ≤ specs.length)
    (hall : ∀ s ∈ specs,
      (∃ r, s.1 = ReadOutcome.ok r) ∧ s.2 = PutOutcome.raises StoreExc.conflict) :
    append_log_row_to_github row sess specs =
      { attemptsUsed := 5, commit := none, raised := some StoreExc.conflict,
        sessionAfter := sess } := by
  have hlen5 : (specs.take 5).length = 5 := by
    rw [List.length_take]; omega
  have hne : specs.take 5 ≠ [] := by
    intro h; rw [h] at hlen5; cases hlen5
  have hall5 : ∀ s ∈ specs.take 5,
      (∃ r, s.1 = ReadOutcome.ok r) ∧ s.2 = PutOutcome.raises StoreExc.conflict :=
    fun s hs => hall s ((List.take_sublist 5 specs).mem hs)
  rw [append_eq_of_not_mem row sess specs hk,
    runAttempts_all_conflict row (specs.take 5) hne hall5 none]
  simp [hlen5]

/-- Witness for C2: five straight conflicts on a concrete row give five
attempts, no commit, and an unchanged (empty) session. -/
theorem C2_witness :
    dedupKey rowB ∉ ([] : List (String × Rat × Nat × String)) ∧
      append_log_row_to_github rowB []
          (List.replicate 5 (.ok (some ([rowA], 7)), .raises .conflict)) =
        { attemptsUsed := 5, commit := none, raised := some StoreExc.conflict,
          sessionAfter := [] } :=
  ⟨by decide,
    C2_conflict_exhaustion_five_attempts rowB []
      (List.replicate 5 (.ok (some ([rowA], 7)), .raises .conflict))
      (by decide) (by decide)
      (fun s hs => by
        rw [List.eq_of_mem_replicate hs]
        exact ⟨⟨some ([rowA], 7), rfl⟩, rfl⟩)⟩

/-- Counterexample to C3: with a transient failure on the first attempt
and a store that would accept the write on the second attempt, the call
does not retry — it stops after one attempt with the transient error and
commits nothing, although a successful attempt was still available within
the 5-attempt budget. -/
theorem C3_counterexample :
    append_log_row_to_github rowB []
        [(.ok (some ([rowA], 7)), .raises .transient), (.ok (some ([rowA], 7)), .ok)] =
      { attemptsUsed := 1, commit := none, raised := some StoreExc.transient,
        sessionAfter := [] } := by
  decide

/-- C3 (amended): a transient (non-conflict) store error is never retried:
the loop breaks on the iteration that hits it — after any number of
preceding conflict retries — and the transient error is raised to the
caller at once, with nothing committed and the session unchanged; only
version conflicts take the retry path. -/
theorem C3_amended_transient_breaks_immediately (row : Row)
    (sess : List (String × Rat × Nat × String))
    (pre : List (ReadOutcome × PutOutcome)) (rd : Option (List Row × Nat))
    (rest : List (ReadOutcome × PutOutcome))
    (hk : dedupKey row ∉ sess)
    (hpre : ∀ s ∈ pre,
      (∃ r, s.1 = ReadOutcome.ok r) ∧ s.2 = PutOutcome.raises StoreExc.conflict)
    (hlen : pre.length ≤ 4) :
    append_log_row_to_github row sess
        (pre ++ (ReadOutcome.ok rd, PutOutcome.raises StoreExc.transient) :: rest) =
      { attemptsUsed := pre.length + 1, commit := none,
        raised := some StoreExc.transient, sessionAfter := sess } := by
  have htake :
      (pre ++ (ReadOutcome.ok rd, PutOutcome.raises StoreExc.transient) :: rest).take 5 =
        pre ++ (ReadOutcome.ok rd, PutOutcome.raises StoreExc.transient) ::
          rest.take (4 - pre.length) := by
    rw [List.take_append_eq_append_take, List.take_of_length_le (le_trans hlen (by norm_num))]
    have h5 : 5 - pre.length = (4 - pre.length) + 1 := by omega
    rw [h5, List.take_succ_cons]
  rw [append_eq_of_not_mem row sess _ hk, htake,
    runAttempts_transient_stops row pre hpre rd (rest.take (4 - pre.length)) none]
  rfl

/-- Witness for the amended C3: one conflict retry followed by a put that
fails with a network error stops after the second attempt. -/
theorem C3_amended_witness :
    dedupKey rowB ∉ ([] : List (String × Rat × Nat × String)) ∧
      ([(.ok (some ([rowA], 7)), .raises .conflict)] :
            List (ReadOutcome × PutOutcome)).length ≤ 4 ∧
      append_log_row_to_github rowB []
          ([(.ok (some ([rowA], 7)), .raises .conflict)] ++
            (ReadOutcome.ok (some ([rowA], 8)), PutOutcome.raises StoreExc.transient) ::
              [(.ok (some ([rowA], 9)), .ok)]) =
        { attemptsUsed := 2, commit := none, raised := some StoreExc.transient,
          sessionAfter := [] } :=
  ⟨by decide, by decide,
    C3_amended_transient_breaks_immediately rowB []
      [(.ok (some ([rowA], 7)), .raises .conflict)] (some ([rowA], 8))
      [(.ok (some ([rowA], 9)), .ok)] (by decide)
      (fun s hs => by
        rw [List.mem_singleton] at hs
        rw [hs]
        exact ⟨⟨some ([rowA], 7), rfl⟩, rfl⟩)
      (by decide)⟩

/-- C4: within one session, a second call with an equal dedup key after a
successful first call is a no-op (no attempt, no read, no write), so the
log receives exactly one record for that key; and the key is marked only
after a successful commit — a failed call leaves the session dedup state
untouched. -/
theorem C4_session_dedup_exactly_once (row1 row2 : Row)
    (sess : List (String × Rat × Nat × String))
    (specs1 specs2 : List (ReadOutcome × PutOutcome))
    (hkey : dedupKey row2 = dedupKey row1)
    (hsucc : (append_log_row_to_github row1 sess specs1).commit ≠ none) :
    (append_log_row_to_github row2
        (append_log_row_to_github row1 sess specs1).sessionAfter specs2 =
      { attemptsUsed := 0, commit := none, raised := none,
        sessionAfter := (append_log_row_to_github row1 sess specs1).sessionAfter }) ∧
    ∀ (row : Row) (s : List (String × Rat × Nat × String))
      (sp : List (ReadOutcome × PutOutcome)),
      (append_log_row_to_github row s sp).commit = none →
      (append_log_row_to_github row s sp).sessionAfter = s := by
  constructor
  · have hmem : dedupKey row2 ∈ (append_log_row_to_github row1 sess specs1).sessionAfter := by
      rw [hkey]
      exact append_key_mem_of_commit row1 sess specs1 hsucc
    exact append_eq_of_mem row2 _ specs2 hmem
  · exact fun row s sp h => append_session_unchanged_of_no_commit row s sp h

/-- Witness for C4: `rowB2` has the same dedup key as `rowB`; after a
successful first append, the second call is a no-op. -/
theorem C4_witness :
    dedupKey rowB2 = dedupKey rowB ∧
      (append_log_row_to_github rowB [] [(.ok (some ([rowA], 7)), .ok)]).commit ≠ none ∧
      append_log_row_to_github rowB2
          (append_log_row_to_github rowB [] [(.ok (some ([rowA], 7)), .ok)]).sessionAfter
          [] =
        { attemptsUsed := 0, commit := none, raised := none,
          sessionAfter :=
            (append_log_row_to_github rowB []
              [(.ok (some ([rowA], 7)), .ok)]).sessionAfter } :=
  ⟨by decide, by decide,
    (C4_session_dedup_exactly_once rowB rowB2 [] [(.ok (some ([rowA], 7)), .ok)] []
      (by decide) (by decide)).1⟩

/-- C5: when the log blob does not exist (the read returns the 404 result
`(None, None)`), the append does not fail: it builds a table holding
exactly the one new record and commits it with `sha=None` — an
unconditional create with no expected version token. -/
theorem C5_notfound_creates_singleton_log (row : Row)
    (sess : List (String × Rat × Nat × String)) (rest : List (ReadOutcome × PutOutcome))
    (hk : dedupKey row ∉ sess) :
    append_log_row_to_github row sess ((ReadOutcome.ok none, PutOutcome.ok) :: rest) =
      { attemptsUsed := 1
        commit := some { readLog := none, shaArg := none, written := [row] }
        raised := none
        sessionAfter := dedupKey row :: sess } := by
  rw [append_eq_of_not_mem row sess _ hk]
  rfl

/-- Witness for C5: a concrete append against a missing blob creates the
one-record log. -/
theorem C5_witness :
    dedupKey rowB ∉ ([] : List (String × Rat × Nat × String)) ∧
      append_log_row_to_github rowB [] [(ReadOutcome.ok none, PutOutcome.ok)] =
        { attemptsUsed := 1
          commit := some { readLog := none, shaArg := none, written := [rowB] }
          raised := none
          sessionAfter := [dedupKey rowB] } :=
  ⟨by decide, C5_notfound_creates_singleton_log rowB [] [] (by decide)⟩

/-! ### Helper lemmas for the evaluation block -/

/-- A numeric cell is not missing. -/
theorem PyVal.isNa_eq_false_of_isNum {v : PyVal} (h : v.isNum = true) :
    v.isNa = false := by
  cases v <;> simp_all [PyVal.isNum, PyVal.isNa]

/-- Unfolding equation of `dropDupIdsAux` on a non-empty table. -/
theorem dropDupIdsAux_cons (p : String × PyVal) (ps : List (String × PyVal))
    (seen : List String) :
    dropDupIdsAux (p :: ps) seen =
      if seen.contains p.1 then dropDupIdsAux ps seen
      else p :: dropDupIdsAux ps (p.1 :: seen) := rfl

/-- The ids kept by `dropDupIdsAux` are distinct and avoid the accumulator
of already-seen ids. -/
theorem dropDupIdsAux_ids_nodup (l : List (String × PyVal)) :
    ∀ seen : List String,
      ((dropDupIdsAux l seen).map Prod.fst).Nodup ∧
      ∀ x ∈ (dropDupIdsAux l seen).map Prod.fst, x ∉ seen := by
  induction l with
  | nil =>
    intro seen
    exact ⟨List.nodup_nil, fun x hx => absurd hx (List.not_mem_nil x)⟩
  | cons p ps ih =>
    intro seen
    by_cases hc : seen.contains p.1
    · rw [dropDupIdsAux_cons, if_pos hc]
      exact ih seen
    · rw [dropDupIdsAux_cons, if_neg hc]
      have ihr := ih (p.1 :: seen)
      have hp1 : p.1 ∉ seen := by
        intro hmem
        exact hc (by simpa using hmem)
      refine ⟨?_, ?_⟩
      · rw [List.map_cons, List.nodup_cons]
        exact ⟨fun hmem => (ihr.2 _ hmem) (List.mem_cons_self _ _), ihr.1⟩
      · intro x hx
        rw [List.map_cons, List.mem_cons] at hx
        rcases hx with hx | hx
        · rw [hx]; exact hp1
        · exact fun hmem => (ihr.2 x hx) (List.mem_cons_of_mem _ hmem)

/-- After the duplicate-id and missing-prediction clean-up, the merge's
one-to-one validation always passes: `pd.merge(...,
validate="one_to_one")` never raises on the cleaned tables, whatever the
two id sets are. -/
theorem evalMerge_ne_mergeError (gt sub : List (String × PyVal)) :
    evalMerge gt sub ≠ MergeResult.mergeError := by
  have h1 := (dropDupIdsAux_ids_nodup gt []).1
  have h2 := (dropDupIdsAux_ids_nodup sub []).1
  have h2' : ((dropNaPrediction (dropDupIds sub)).map Prod.fst).Nodup :=
    h2.sublist ((List.filter_sublist _).map Prod.fst)
  unfold evalMerge mergeValidateOneToOne
  rw [if_pos ⟨h1, h2'⟩]
  simp

/-- C6 (corrected, counterexample): with binary numeric targets and the raw
prediction vector `[0.2, 0.9, 0.4, 0.7]`, the pairs handed to
`f1_score` keep the raw predictions unchanged — they are not the binary
labels `[0, 1, 0, 1]` the claimed thresholding would produce. -/
theorem C6_counterexample :
    (evalPrep toNumStub numStrStub c6pairs).map Prod.snd =
        [.num q02, .num q09, .num q04, .num q07] ∧
      (evalPrep toNumStub numStrStub c6pairs).map Prod.snd ≠
        [.num 0, .num 1, .num 0, .num 1] := by
  decide

/-- C6 (amended): the scorer applies no binarization policy: whenever
target and prediction cells are all numeric, the merged pairs reach
`f1_score(..., average="weighted")` exactly as they are — no rounding
check, no 0.5 threshold, no min-max normalization, and no `binarized`
flag exists anywhere in the code. -/
theorem C6_amended_no_binarization (toNum : String → Option Rat)
    (numStr : Rat → String) (merged : List (PyVal × PyVal))
    (h : ∀ p ∈ merged, p.1.isNum = true ∧ p.2.isNum = true) :
    evalPrep toNum numStr merged = merged := by
  have ht : isNumericCol (merged.map Prod.fst) = true := by
    simp only [isNumericCol, List.all_eq_true]
    intro p hp
    obtain ⟨q, hq, rfl⟩ := List.mem_map.mp hp
    simp [(h q hq).1]
  have hp2 : isNumericCol (merged.map Prod.snd) = true := by
    simp only [isNumericCol, List.all_eq_true]
    intro p hp
    obtain ⟨q, hq, rfl⟩ := List.mem_map.mp hp
    simp [(h q hq).2]
  unfold evalPrep
  simp only [ht, hp2, Bool.not_true, Bool.and_false, Bool.false_and, if_false]
  apply List.filter_eq_self.mpr
  intro p hp
  simp [PyVal.isNa_eq_false_of_isNum (h p hp).1, PyVal.isNa_eq_false_of_isNum (h p hp).2]

/-- Witness for the amended C6: the all-numeric example table passes
through the pre-scoring step unchanged. -/
theorem C6_amended_witness :
    evalPrep toNumStub numStrStub c6pairs = c6pairs :=
  C6_amended_no_binarization toNumStub numStrStub c6pairs (by decide)

/-! ### Helper lemmas for the leaderboard projection

The two sort comparators are strict weak orders (lexicographic products of
the linear orders on `Rat` and on codepoint strings); these lemmas
establish irreflexivity, asymmetry, transitivity of "not strictly before",
and connectivity, and from them the sortedness of the insertion sort and
the best-per-group selection of the keep-first deduplication. -/

/-- `charListLtb` is irreflexive. -/
theorem charListLtb_irrefl : ∀ l : List Char, charListLtb l l = false
  | [] => rfl
  | a :: as => by
    unfold charListLtb
    rw [if_neg (lt_irrefl a), if_neg (lt_irrefl a)]
    exact charListLtb_irrefl as

/-- `charListLtb` is asymmetric. -/
theorem charListLtb_asymm : ∀ a b : List Char,
    charListLtb a b = true → charListLtb b a = false
  | [], [] => by intro h; cases h
  | [], _ :: _ => by intro _; rfl
  | _ :: _, [] => by intro h; cases h
  | a :: as, b :: bs => by
    intro h
    unfold charListLtb at h ⊢
    by_cases hab : a < b
    · rw [if_neg (lt_asymm hab), if_pos hab]
    · rw [if_neg hab] at h
      by_cases hba : b < a
      · rw [if_pos hba] at h; cases h
      · rw [if_neg hba] at h
        rw [if_neg hba, if_neg hab]
        exact charListLtb_asymm as bs h

/-- `charListLtb` is transitive. -/
theorem charListLtb_trans : ∀ a b c : List Char,
    charListLtb a b = true → charListLtb b c = true → charListLtb a c = true
  | [], [], _ => by intro h _; cases h
  | [], _ :: _, [] => by intro _ h; cases h
  | [], _ :: _, _ :: _ => by intro _ _; rfl
  | _ :: _, [], _ => by intro h _; cases h
  | _ :: _, _ :: _, [] => by intro _ h; cases h
  | a :: as, b :: bs, c :: cs => by
    intro h1 h2
    unfold charListLtb at h1 h2 ⊢
    by_cases hab : a < b
    · by_cases hbc : b < c
      · rw [if_pos (lt_trans hab hbc)]
      · rw [if_neg hbc] at h2
        by_cases hcb : c < b
        · rw [if_pos hcb] at h2; cases h2
        · have hbceq : b = c := le_antisymm (not_lt.mp hcb) (not_lt.mp hbc)
          subst hbceq
          rw [if_pos hab]
    · rw [if_neg hab] at h1
      by_cases hba : b < a
      · rw [if_pos hba] at h1; cases h1
      · rw [if_neg hba] at h1
        have habeq : a = b := le_antisymm (not_lt.mp hba) (not_lt.mp hab)
        subst habeq
        by_cases hac : a < c
        · rw [if_pos hac]
        · rw [if_neg hac] at h2 ⊢
          by_cases hca : c < a
          · rw [if_pos hca] at h2; cases h2
          · rw [if_neg hca] at h2 ⊢
            exact charListLtb_trans as bs cs h1 h2

/-- `charListLtb` is connected: two mutually not-less lists are equal. -/
theorem charListLtb_eq_of_both_false : ∀ a b : List Char,
    charListLtb a b = false → charListLtb b a = false → a = b
  | [], [] => fun _ _ => rfl
  | [], _ :: _ => by intro h _; cases h
  | _ :: _, [] => by intro _ h; cases h
  | a :: as, b :: bs => by
    intro h1 h2
    unfold charListLtb at h1 h2
    by_cases hab : a < b
    · rw [if_pos hab] at h1; cases h1
    · by_cases hba : b < a
      · rw [if_pos hba] at h2; cases h2
      · rw [if_neg hab, if_neg hba] at h1
        rw [if_neg hba, if_neg hab] at h2
        have : a = b := le_antisymm (not_lt.mp hba) (not_lt.mp hab)
        subst this
        rw [charListLtb_eq_of_both_false as bs h1 h2]

/-- "Not strictly before" is transitive for `charListLtb`. -/
theorem charListLtb_nbefore_trans (a b c : List Char)
    (hb : charListLtb b a = false) (hc : charListLtb c b = false) :
    charListLtb c a = false := by
  cases hca : charListLtb c a with
  | false => rfl
  | true =>
    cases hbc : charListLtb b c with
    | true =>
      rw [charListLtb_trans b c a hbc hca] at hb
      cases hb
    | false =>
      rw [charListLtb_eq_of_both_false b c hbc hc] at hb
      rw [hca] at hb
      cases hb

/-- `pyStrLtb` is irreflexive. -/
theorem pyStrLtb_irrefl (s : String) : pyStrLtb s s = false :=
  charListLtb_irrefl s.data

/-- `pyStrLtb` is asymmetric. -/
theorem pyStrLtb_asymm (a b : String) (h : pyStrLtb a b = true) :
    pyStrLtb b a = false :=
  charListLtb_asymm a.data b.data h

/-- "Not strictly before" is transitive for `pyStrLtb`. -/
theorem pyStrLtb_nbefore_trans (a b c : String)
    (hb : pyStrLtb b a = false) (hc : pyStrLtb c b = false) :
    pyStrLtb c a = false :=
  charListLtb_nbefore_trans a.data b.data c.data hb hc

/-- `pyStrLtb` is connected: two mutually not-less strings are equal. -/
theorem pyStrLtb_eq_of_both_false (a b : String)
    (h1 : pyStrLtb a b = false) (h2 : pyStrLtb b a = false) : a = b := by
  have hd : a.data = b.data := charListLtb_eq_of_both_false a.data b.data h1 h2
  cases a; cases b
  simp only at hd
  rw [hd]

/-- `rankSortBefore` as a proposition. -/
theorem rankSortBefore_eq_true_iff (a b : Row) :
    rankSortBefore a b = true ↔
      (b.f1_weighted < a.f1_weighted ∨
        (a.f1_weighted = b.f1_weighted ∧
          pyStrLtb b.timestamp_utc a.timestamp_utc = true)) := by
  simp [rankSortBefore]

/-- Negation of `rankSortBefore` as a proposition. -/
theorem rankSortBefore_eq_false_iff (a b : Row) :
    rankSortBefore a b = false ↔
      (a.f1_weighted ≤ b.f1_weighted ∧
        (a.f1_weighted = b.f1_weighted →
          pyStrLtb b.timestamp_utc a.timestamp_utc = false)) := by
  rw [← Bool.not_eq_true, rankSortBefore_eq_true_iff]
  simp [not_or, not_lt, Bool.not_eq_true]

/-- `rankSortBefore` is irreflexive. -/
theorem rankSortBefore_irrefl (a : Row) : rankSortBefore a a = false := by
  rw [rankSortBefore_eq_false_iff]
  exact ⟨le_refl _, fun _ => pyStrLtb_irrefl _⟩

/-- `rankSortBefore` is asymmetric. -/
theorem rankSortBefore_asymm (a b : Row) (h : rankSortBefore a b = true) :
    rankSortBefore b a = false := by
  rw [rankSortBefore_eq_true_iff] at h
  rw [rankSortBefore_eq_false_iff]
  rcases h with h | ⟨he, ht⟩
  · refine ⟨le_of_lt h, fun he => ?_⟩
    rw [he] at h
    exact absurd h (lt_irrefl _)
  · exact ⟨he.ge, fun _ => pyStrLtb_asymm _ _ ht⟩

/-- "Not strictly before" is transitive for `rankSortBefore`. -/
theorem rankSortBefore_nbefore_trans (a b c : Row)
    (hba : rankSortBefore b a = false) (hcb : rankSortBefore c b = false) :
    rankSortBefore c a = false := by
  rw [rankSortBefore_eq_false_iff] at hba hcb ⊢
  refine ⟨le_trans hcb.1 hba.1, fun hca => ?_⟩
  have hcbf : c.f1_weighted = b.f1_weighted :=
    le_antisymm hcb.1 (hca ▸ hba.1)
  have hbaf : b.f1_weighted = a.f1_weighted := hcbf.symm.trans hca
  exact pyStrLtb_nbefore_trans c.timestamp_utc b.timestamp_utc a.timestamp_utc
    (hcb.2 hcbf) (hba.2 hbaf)

/-- `bestSortBefore` is the key comparison lexicographically refined by
`rankSortBefore`. -/
theorem bestSortBefore_def (a b : Row) :
    bestSortBefore a b =
      (pyStrLtb (rankKey a) (rankKey b) ||
        (rankKey a == rankKey b && rankSortBefore a b)) := rfl

/-- `bestSortBefore` as a proposition. -/
theorem bestSortBefore_eq_true_iff (a b : Row) :
    bestSortBefore a b = true ↔
      (pyStrLtb (rankKey a) (rankKey b) = true ∨
        (rankKey a = rankKey b ∧ rankSortBefore a b = true)) := by
  rw [bestSortBefore_def]
  simp

/-- Negation of `bestSortBefore` as a proposition. -/
theorem bestSortBefore_eq_false_iff (a b : Row) :
    bestSortBefore a b = false ↔
      (pyStrLtb (rankKey a) (rankKey b) = false ∧
        (rankKey a = rankKey b → rankSortBefore a b = false)) := by
  rw [← Bool.not_eq_true, bestSortBefore_eq_true_iff]
  simp [not_or, Bool.not_eq_true]

/-- `bestSortBefore` is irreflexive. -/
theorem bestSortBefore_irrefl (a : Row) : bestSortBefore a a = false := by
  rw [bestSortBefore_eq_false_iff]
  exact ⟨pyStrLtb_irrefl _, fun _ => rankSortBefore_irrefl a⟩

/-- `bestSortBefore` is asymmetric. -/
theorem bestSortBefore_asymm (a b : Row) (h : bestSortBefore a b = true) :
    bestSortBefore b a = false := by
  rw [bestSortBefore_eq_true_iff] at h
  rw [bestSortBefore_eq_false_iff]
  rcases h with h | ⟨he, hin⟩
  · refine ⟨pyStrLtb_asymm _ _ h, fun heq => ?_⟩
    rw [heq] at h
    rw [pyStrLtb_irrefl] at h
    cases h
  · constructor
    · rw [← he]
      exact pyStrLtb_irrefl _
    · exact fun _ => rankSortBefore_asymm a b hin

/-- "Not strictly before" is transitive for `bestSortBefore`. -/
theorem bestSortBefore_nbefore_trans (a b c : Row)
    (hba : bestSortBefore b a = false) (hcb : bestSortBefore c b = false) :
    bestSortBefore c a = false := by
  rw [bestSortBefore_eq_false_iff] at hba hcb ⊢
  refine ⟨pyStrLtb_nbefore_trans (rankKey a) (rankKey b) (rankKey c) hba.1 hcb.1,
    fun hca => ?_⟩
  have hcb1 : pyStrLtb (rankKey a) (rankKey b) = false := by
    rw [← hca]
    exact hcb.1
  have hbk : rankKey b = rankKey a := pyStrLtb_eq_of_both_false _ _ hba.1 hcb1
  exact rankSortBefore_nbefore_trans a b c (hba.2 hbk) (hcb.2 (hca.trans hbk.symm))

/-- On rows of the same normalized user, `bestSortBefore` coincides with
the inner (score desc, timestamp desc) comparison. -/
theorem bestSortBefore_key_eq {a b : Row} (h : rankKey a = rankKey b) :
    bestSortBefore a b = rankSortBefore a b := by
  rw [bestSortBefore_def, h]
  simp [pyStrLtb_irrefl]

/-- `insertOrd` permutes: inserting yields the element consed on. -/
theorem insertOrd_perm (before : Row → Row → Bool) (x : Row) :
    ∀ l : List Row, List.Perm (insertOrd before x l) (x :: l)
  | [] => List.Perm.refl _
  | y :: ys => by
    unfold insertOrd
    by_cases h : before y x
    · rw [if_pos h]
      exact (List.Perm.cons y (insertOrd_perm before x ys)).trans (List.Perm.swap x y ys)
    · rw [if_neg h]

/-- `sortRows` permutes its input. -/
theorem sortRows_perm (before : Row → Row → Bool) :
    ∀ l : List Row, List.Perm (sortRows before l) l
  | [] => List.Perm.refl _
  | x :: xs => by
    unfold sortRows
    exact (insertOrd_perm before x (sortRows before xs)).trans
      (List.Perm.cons x (sortRows_perm before xs))

/-- Inserting into a list sorted by `before` keeps it sorted, provided
`before` is asymmetric and "not before" is transitive. -/
theorem insertOrd_pairwise (before : Row → Row → Bool)
    (hA : ∀ a b, before a b = true → before b a = false)
    (hB : ∀ a b c, before b a = false → before c b = false → before c a = false)
    (x : Row) :
    ∀ l : List Row, l.Pairwise (fun a b => before b a = false) →
      (insertOrd before x l).Pairwise (fun a b => before b a = false)
  | [], _ => by simp [insertOrd]
  | y :: ys, hl => by
    rw [List.pairwise_cons] at hl
    unfold insertOrd
    by_cases h : before y x
    · rw [if_pos h, List.pairwise_cons]
      refine ⟨fun z hz => ?_, insertOrd_pairwise before hA hB x ys hl.2⟩
      rcases List.mem_cons.mp ((insertOrd_perm before x ys).mem_iff.mp hz) with rfl | hz'
      · exact hA y z h
      · exact hl.1 z hz'
    · rw [if_neg h, List.pairwise_cons]
      have h' : before y x = false := by
        cases hyx : before y x with
        | false => rfl
        | true => exact absurd hyx h
      refine ⟨fun z hz => ?_, List.pairwise_cons.mpr hl⟩
      rcases List.mem_cons.mp hz with rfl | hz'
      · exact h'
      · exact hB x y z h' (hl.1 z hz')

/-- `sortRows` sorts, for an asymmetric comparator whose negation is
transitive. -/
theorem sortRows_pairwise (before : Row → Row → Bool)
    (hA : ∀ a b, before a b = true → before b a = false)
    (hB : ∀ a b c, before b a = false → before c b = false → before c a = false) :
    ∀ l : List Row, (sortRows before l).Pairwise (fun a b => before b a = false)
  | [] => by simp [sortRows]
  | x :: xs => by
    unfold sortRows
    exact insertOrd_pairwise before hA hB x _ (sortRows_pairwise before hA hB xs)

/-- Unfolding equation of `dropDupRankKeyAux` on a non-empty table. -/
theorem dropDupRankKeyAux_cons (r : Row) (rs : List Row) (seen : List String) :
    dropDupRankKeyAux (r :: rs) seen =
      if seen.contains (rankKey r) then dropDupRankKeyAux rs seen
      else r :: dropDupRankKeyAux rs (rankKey r :: seen) := rfl

/-- The keep-first deduplication selects a sublist of its input. -/
theorem dropDupRankKeyAux_sublist :
    ∀ (l : List Row) (seen : List String),
      List.Sublist (dropDupRankKeyAux l seen) l
  | [], _ => List.Sublist.refl _
  | r :: rs, seen => by
    rw [dropDupRankKeyAux_cons]
    by_cases hc : seen.contains (rankKey r)
    · rw [if_pos hc]
      exact List.Sublist.cons r (dropDupRankKeyAux_sublist rs seen)
    · rw [if_neg hc]
      exact List.Sublist.cons₂ r (dropDupRankKeyAux_sublist rs (rankKey r :: seen))

/-- The normalized users kept by `dropDupRankKeyAux` are distinct and
avoid the accumulator of already-seen users. -/
theorem dropDupRankKeyAux_keys (l : List Row) :
    ∀ seen : List String,
      ((dropDupRankKeyAux l seen).map rankKey).Nodup ∧
      ∀ k ∈ (dropDupRankKeyAux l seen).map rankKey, k ∉ seen := by
  induction l with
  | nil =>
    intro seen
    exact ⟨List.nodup_nil, fun k hk => absurd hk (List.not_mem_nil k)⟩
  | cons p ps ih =>
    intro seen
    by_cases hc : seen.contains (rankKey p)
    · rw [dropDupRankKeyAux_cons, if_pos hc]
      exact ih seen
    · rw [dropDupRankKeyAux_cons, if_neg hc]
      have ihr := ih (rankKey p :: seen)
      have hp1 : rankKey p ∉ seen := by
        intro hmem
        exact hc (by simpa using hmem)
      refine ⟨?_, ?_⟩
      · rw [List.map_cons, List.nodup_cons]
        exact ⟨fun hmem => (ihr.2 _ hmem) (List.mem_cons_self _ _), ihr.1⟩
      · intro k hk
        rw [List.map_cons, List.mem_cons] at hk
        rcases hk with hk | hk
        · rw [hk]; exact hp1
        · exact fun hmem => (ihr.2 k hk) (List.mem_cons_of_mem _ hmem)

/-- Every record whose normalized user is not yet seen is represented in
the deduplicated list by a record of the same normalized user. -/
theorem dropDupRankKeyAux_covers :
    ∀ (l : List Row) (seen : List String) (r : Row), r ∈ l →
      rankKey r ∉ seen →
      ∃ e ∈ dropDupRankKeyAux l seen, rankKey e = rankKey r
  | [], _, r, hr, _ => absurd hr (List.not_mem_nil r)
  | p :: ps, seen, r, hr, hs => by
    rw [dropDupRankKeyAux_cons]
    by_cases hc : seen.contains (rankKey p)
    · rw [if_pos hc]
      rcases List.mem_cons.mp hr with rfl | hr'
      · exact absurd (by simpa using hc) hs
      · exact dropDupRankKeyAux_covers ps seen r hr' hs
    · rw [if_neg hc]
      rcases List.mem_cons.mp hr with rfl | hr'
      · exact ⟨r, List.mem_cons_self _ _, rfl⟩
      · by_cases hk : rankKey r = rankKey p
        · exact ⟨p, List.mem_cons_self _ _, hk.symm⟩
        · have hs' : rankKey r ∉ rankKey p :: seen := by
            rw [List.mem_cons]
            rintro (h | h)
            · exact hk h
            · exact hs h
          obtain ⟨e, he, hke⟩ := dropDupRankKeyAux_covers ps (rankKey p :: seen) r hr' hs'
          exact ⟨e, List.mem_cons_of_mem _ he, hke⟩

/-- On a list sorted by `bestSortBefore`, keep-first deduplication keeps,
for each normalized user, a record that no record of that user strictly
beats under (score desc, timestamp desc). -/
theorem dropDupRankKeyAux_best (l : List Row) :
    ∀ seen : List String,
      l.Pairwise (fun a b => bestSortBefore b a = false) →
      ∀ e ∈ dropDupRankKeyAux l seen, ∀ r ∈ l, rankKey r = rankKey e →
        bestSortBefore r e = false := by
  induction l with
  | nil =>
    intro seen _ e he
    exact absurd he (List.not_mem_nil e)
  | cons p ps ih =>
    intro seen hl e he r hr hk
    rw [List.pairwise_cons] at hl
    rw [dropDupRankKeyAux_cons] at he
    by_cases hc : seen.contains (rankKey p)
    · rw [if_pos hc] at he
      have hek : rankKey e ∉ seen :=
        (dropDupRankKeyAux_keys ps seen).2 (rankKey e) (List.mem_map_of_mem rankKey he)
      rcases List.mem_cons.mp hr with rfl | hr'
      · rw [hk] at hc
        exact absurd (by simpa using hc) hek
      · exact ih seen hl.2 e he r hr' hk
    · rw [if_neg hc] at he
      rcases List.mem_cons.mp he with rfl | he'
      · rcases List.mem_cons.mp hr with rfl | hr'
        · exact bestSortBefore_irrefl r
        · exact hl.1 r hr'
      · have hek : rankKey e ∉ rankKey p :: seen :=
          (dropDupRankKeyAux_keys ps (rankKey p :: seen)).2 (rankKey e)
            (List.mem_map_of_mem rankKey he')
        rcases List.mem_cons.mp hr with rfl | hr'
        · rw [List.mem_cons] at hek
          exact absurd hk.symm (fun h => hek (Or.inl h))
        · exact ih (rankKey p :: seen) hl.2 e he' r hr' hk

/-- C7: the leaderboard is a pure projection of the history table that
groups records by normalized user identity (trim + case-fold): each
normalized user present in the table appears exactly once; every displayed
line is one of that user's actual records (dropped, not averaged), and no
record of the same user ranks strictly higher under (score descending,
most-recent-timestamp tie-break); lines are ranked by (score descending,
timestamp descending).  On `{alice,0.8,t1}, {alice,0.6,t2}, {bob,0.9,t3}`
(`t1 < t2 < t3`) it ranks `bob (0.9)` above `alice (0.8)` and drops
alice's 0.6 record, and on carol's score tie `{0.9,t1}, {0.9,t2}` it keeps
the most recent record `t2`. -/
theorem C7_leaderboard_groups_best_and_ranks (df : List Row) :
    (((leaderboard df).map entryKey).Nodup ∧
      (∀ r ∈ df, ∃ e ∈ leaderboard df, entryKey e = rankKey r) ∧
      (∀ e ∈ leaderboard df, ∃ r ∈ df, rowEntry r = e) ∧
      (∀ e ∈ leaderboard df, ∀ r ∈ df, rankKey r = entryKey e →
        entryBefore (rowEntry r) e = false) ∧
      (leaderboard df).Pairwise (fun a b => entryBefore b a = false)) ∧
    leaderboard [lbAlice1, lbAlice2, lbBob] =
      [⟨"bob", q09, 10, "t3"⟩, ⟨"alice", q08, 10, "t1"⟩] ∧
    leaderboard [lbCarol1, lbCarol2] = [⟨"carol", q09, 10, "t2"⟩] := by
  have hperm1 : List.Perm (sortRows bestSortBefore df) df := sortRows_perm bestSortBefore df
  have hpair1 : (sortRows bestSortBefore df).Pairwise
      (fun a b => bestSortBefore b a = false) :=
    sortRows_pairwise bestSortBefore bestSortBefore_asymm bestSortBefore_nbefore_trans df
  have hsub : List.Sublist (dropDupRankKeyAux (sortRows bestSortBefore df) [])
      (sortRows bestSortBefore df) :=
    dropDupRankKeyAux_sublist (sortRows bestSortBefore df) []
  have hkeys : ((dropDupRankKeyAux (sortRows bestSortBefore df) []).map rankKey).Nodup :=
    (dropDupRankKeyAux_keys (sortRows bestSortBefore df) []).1
  have hperm2 : List.Perm
      (sortRows rankSortBefore (dropDupRankKeyAux (sortRows bestSortBefore df) []))
      (dropDupRankKeyAux (sortRows bestSortBefore df) []) :=
    sortRows_perm rankSortBefore (dropDupRankKeyAux (sortRows bestSortBefore df) [])
  have hpair2 : (sortRows rankSortBefore
      (dropDupRankKeyAux (sortRows bestSortBefore df) [])).Pairwise
      (fun a b => rankSortBefore b a = false) :=
    sortRows_pairwise rankSortBefore rankSortBefore_asymm rankSortBefore_nbefore_trans
      (dropDupRankKeyAux (sortRows bestSortBefore df) [])
  have hlb : leaderboard df =
      (sortRows rankSortBefore
        (dropDupRankKeyAux (sortRows bestSortBefore df) [])).map rowEntry := rfl
  refine ⟨⟨?_, ?_, ?_, ?_, ?_⟩, by decide, by decide⟩
  · rw [hlb, List.map_map]
    exact ((hperm2.map rankKey).nodup_iff).mpr hkeys
  · intro r hr
    obtain ⟨e', he', hke⟩ := dropDupRankKeyAux_covers (sortRows bestSortBefore df) [] r
      (hperm1.mem_iff.mpr hr) (List.not_mem_nil _)
    refine ⟨rowEntry e', ?_, hke⟩
    rw [hlb]
    exact List.mem_map_of_mem rowEntry (hperm2.mem_iff.mpr he')
  · intro e he
    rw [hlb] at he
    obtain ⟨e', he', rfl⟩ := List.mem_map.mp he
    exact ⟨e', hperm1.mem_iff.mp (hsub.mem (hperm2.mem_iff.mp he')), rfl⟩
  · intro e he r hr hk
    rw [hlb] at he
    obtain ⟨e', he', rfl⟩ := List.mem_map.mp he
    have hb := dropDupRankKeyAux_best (sortRows bestSortBefore df) [] hpair1 e'
      (hperm2.mem_iff.mp he') r (hperm1.mem_iff.mpr hr) hk
    have hbk : entryBefore (rowEntry r) (rowEntry e') = rankSortBefore r e' := rfl
    rw [hbk, ← bestSortBefore_key_eq hk]
    exact hb
  · rw [hlb, List.pairwise_map]
    exact hpair2

/-- Witness for C7: on the concrete example, alice's 0.6 record does not
rank above the alice line the leaderboard displays. -/
theorem C7_witness :
    entryBefore (rowEntry lbAlice2) ⟨"alice", q08, 10, "t1"⟩ = false :=
  (C7_leaderboard_groups_best_and_ranks [lbAlice1, lbAlice2, lbBob]).1.2.2.2.1
    ⟨"alice", q08, 10, "t1"⟩ (by decide) lbAlice2 (by decide) (by decide)

/-- C8: the matched set is the inner join on id: for the ground truth
`{1:A, 2:B, 3:A}` and submission `{1:A, 2:A, 4:B}` it is exactly
`{1, 2}` (ids 3 and 4 dropped); mismatched id sets never raise (the
one-to-one validation always passes on the cleaned tables); and the
post-merge gate aborts with the user-facing no-overlap error — appending
no record — exactly when the matched set is empty. -/
theorem C8_inner_join_matched_set :
    (evalMerge gtJoinEx subJoinEx =
        MergeResult.ok [("1", PyVal.str "A", PyVal.str "A"),
          ("2", PyVal.str "B", PyVal.str "A")]) ∧
      (∀ gt sub : List (String × PyVal), evalMerge gt sub ≠ MergeResult.mergeError) ∧
      (∀ m : List (String × PyVal × PyVal),
        overlapGate m = OverlapGate.noOverlap ↔ m = []) := by
  refine ⟨by decide, fun gt sub => evalMerge_ne_mergeError gt sub, fun m => ?_⟩
  cases m with
  | nil => simp [overlapGate]
  | cons a t => simp [overlapGate]

/-- Witness for C8: a submission sharing no id with the ground truth
merges without raising, and the empty matched set trips the no-overlap
gate. -/
theorem C8_witness :
    evalMerge gtJoinEx [("9", PyVal.str "Z")] ≠ MergeResult.mergeError ∧
      evalMerge gtJoinEx [("9", PyVal.str "Z")] = MergeResult.ok [] ∧
      (overlapGate [] = OverlapGate.noOverlap ↔
        ([] : List (String × PyVal × PyVal)) = []) :=
  ⟨C8_inner_join_matched_set.2.1 gtJoinEx [("9", PyVal.str "Z")], by decide,
    C8_inner_join_matched_set.2.2 []⟩

/-- C9 (corrected, counterexample): the submission column check accepts
only the literal names: a submission whose prediction column is the
localized alias `prediccion` (or a different case, `Prediction`) is
rejected with the schema error and never evaluated. -/
theorem C9_counterexample :
    script_tail cfgAliasCol = ScriptEnd.stopped StopReason.badUserSchema ∧
      userSchemaOk ["id", "prediccion"] = false ∧
      userSchemaOk ["id", "Prediction"] = false := by
  decide

/-- C9 (amended): the submission normalizer performs no case folding and
accepts no alias: a submission is accepted by the column check exactly
when its columns contain the literal lowercase names `id` and
`prediction`. -/
theorem C9_amended_literal_columns_only (cols : List String) :
    userSchemaOk cols = (cols.contains "id" && cols.contains "prediction") := by
  simp [userSchemaOk, required_user_cols]

/-- C10 (corrected, counterexample): a run whose evaluation block aborts
early via `st.stop()` (here: the uploaded CSV fails to parse, with one
mode selected) ends with the stop — execution never reaches the
module-level publication loop, so no undefined-name error occurs in such
runs. -/
theorem C10_counterexample :
    script_tail cfgBadCsv = ScriptEnd.stopped StopReason.badCsv ∧
      cfgBadCsv.modes ≠ [] ∧
      script_tail cfgBadCsv ≠ ScriptEnd.nameError "timestamp_utc" := by
  decide

/-- C10 (amended): the publication loop executes at module level on every
script run; in every run where the evaluation guard
`run_eval and uploaded and valid_name and modes` is false (button not
pressed, no upload, or blank name) and at least one mode is selected,
building the row reads the never-bound name `timestamp_utc` and execution
reaches an undefined-name error instead of skipping publication.  (Runs
that abort inside the evaluation block via `st.stop()` terminate before
the loop instead.) -/
theorem C10_amended_nameerror_on_skipped_eval (cfg : RunCfg)
    (hguard : (cfg.run_eval && cfg.uploadedPresent && cfg.valid_name &&
      !cfg.modes.isEmpty) = false)
    (hm : cfg.modes ≠ []) :
    script_tail cfg = ScriptEnd.nameError "timestamp_utc" := by
  have hie : cfg.modes.isEmpty = false := by
    cases hmm : cfg.modes with
    | nil => exact absurd hmm hm
    | cons a t => rfl
  unfold script_tail
  rw [if_neg (by simp [hguard]), if_neg (by simp [hie])]

/-- Witness for the amended C10: a run with a mode selected but the button
not pressed hits the `NameError` on `timestamp_utc`. -/
theorem C10_amended_witness :
    script_tail cfgNoButton = ScriptEnd.nameError "timestamp_utc" :=
  C10_amended_nameerror_on_skipped_eval cfgNoButton (by decide) (by decide)

end App
